import Mathlib

/-!
Verification of the spec of the `sexp` repository (RFC 9804 S-expression
parsers and printers) against a shallow embedding of its Python sources.

The repository contains several sibling implementations of the same grammar:
  * `src/sexp/parser.py`   — grammar-driven `loads`, visitors, `_dumps_canonical`,
    `_dumps_advanced`  (embedded here with prefix `lx` / `visit` / `pdc` / `pda`),
  * `src/sexp/printer.py`  — typed-tree printers `_write_canon` / `_write_adv`
    (embedded with prefix `canon`),
  * `src/s_expression/parser.py` — a cursor-based recursive-descent class
    (embedded with prefix `se`).

Python strings are modelled as `List Char` (sequences of Unicode code points);
byte strings as `List Nat` with each entry < 256.  Character predicates such as
`str.isspace`, `str.isdigit`, `str.isalnum` are modelled on the ASCII range,
which is faithful for every input considered in the theorems below.
Unbounded loops and recursion are modelled with an explicit fuel parameter;
running out of fuel is a distinguished result that models non-termination.
-/

/-- Double-quote character, written via its code point. -/
def qCh : Char := Char.ofNat 34

/-- Backslash character. -/
def bsCh : Char := Char.ofNat 92

/-- Apostrophe (single quote) character. -/
def apCh : Char := Char.ofNat 39

/-- Carriage-return character. -/
def crCh : Char := Char.ofNat 13

/-- Line-feed character. -/
def lfCh : Char := Char.ofNat 10

/-- Unicode replacement character U+FFFD, produced by Python
`bytes.decode("utf-8", errors="replace")` for undecodable bytes. -/
def replCh : Char := Char.ofNat 0xFFFD

/-- Model of Python `str.isspace` restricted to the ASCII whitespace
characters (space, tab, LF, CR, vertical tab, form feed). -/
def pyIsSpace (c : Char) : Bool :=
  c = ' ' || c = Char.ofNat 9 || c = lfCh || c = crCh ||
  c = Char.ofNat 11 || c = Char.ofNat 12

/-- Model of Python `str.isdigit` restricted to ASCII digits. -/
def pyIsDigit (c : Char) : Bool :=
  48 ≤ c.toNat && c.toNat ≤ 57

/-- Model of Python `str.isalpha` restricted to ASCII letters. -/
def pyIsAlpha (c : Char) : Bool :=
  (65 ≤ c.toNat && c.toNat ≤ 90) || (97 ≤ c.toNat && c.toNat ≤ 122)

/-- Model of Python `str.isalnum` restricted to ASCII letters and digits. -/
def pyIsAlnum (c : Char) : Bool :=
  pyIsAlpha c || pyIsDigit c

/-- Hexadecimal digit test (both cases), as used by the hex atom decoders. -/
def isHexDigitCh (c : Char) : Bool :=
  pyIsDigit c || (97 ≤ c.toNat && c.toNat ≤ 102) || (65 ≤ c.toNat && c.toNat ≤ 70)

/-- Octal digit test. -/
def isOctDigitCh (c : Char) : Bool :=
  48 ≤ c.toNat && c.toNat ≤ 55

/-- Numeric value of a decimal digit character. -/
def digitVal (c : Char) : Nat := c.toNat - 48

/-- Numeric value of a hexadecimal digit character. -/
def hexVal (c : Char) : Nat :=
  if pyIsDigit c then c.toNat - 48
  else if 97 ≤ c.toNat then c.toNat - 87
  else c.toNat - 55

/-- Value of a list of decimal digit characters, most significant first
(the body of Python `int(...)` on an all-digit string). -/
def digitsToNat (l : List Char) : Nat :=
  l.foldl (fun acc c => 10 * acc + digitVal c) 0

/-- Model of Python `int(s)`: succeeds exactly on non-empty all-digit strings
(no sign or whitespace form is ever produced at the call sites embedded
here, so this restriction is faithful). -/
def pyIntOfString (l : List Char) : Option Nat :=
  if l ≠ [] ∧ l.all pyIsDigit then some (digitsToNat l) else none

/-- Decimal digit character for a value below ten. -/
def digitCh (n : Nat) : Char := Char.ofNat (48 + n)

/-- Lowercase hexadecimal digit character for a value below sixteen. -/
def hexCh (n : Nat) : Char :=
  if n < 10 then Char.ofNat (48 + n) else Char.ofNat (87 + n)

/-- Decimal representation of a natural number (auxiliary, fuelled). -/
def natDigitsAux : Nat → Nat → List Char
  | 0, _ => []
  | f + 1, n => if n < 10 then [digitCh n] else natDigitsAux f (n / 10) ++ [digitCh (n % 10)]

/-- Decimal representation of a natural number, as Python `str(n)` produces. -/
def natDigits (n : Nat) : List Char := natDigitsAux (n + 1) n

/-- Two-or-more-digit lowercase hexadecimal representation of a byte/ordinal,
as produced by the Python format `\x7b0:02x\x7d` used in `_dumps_advanced`. -/
def hexMin2Aux : Nat → Nat → List Char
  | 0, _ => []
  | f + 1, n => if n < 16 then [hexCh n] else hexMin2Aux f (n / 16) ++ [hexCh (n % 16)]

/-- Hex digits of `n` padded on the left to width two. -/
def hexMin2 (n : Nat) : List Char :=
  let ds := hexMin2Aux (n + 1) n
  if ds.length < 2 then List.replicate (2 - ds.length) (digitCh 0) ++ ds else ds

/-- UTF-8 byte size of one Unicode scalar value. -/
def utf8Size (c : Char) : Nat :=
  if c.toNat < 0x80 then 1
  else if c.toNat < 0x800 then 2
  else if c.toNat < 0x10000 then 3
  else 4

/-- UTF-8 byte length of a string, the model of `len(s.encode("utf-8"))`. -/
def utf8ByteLen (l : List Char) : Nat :=
  (l.map utf8Size).sum

/-- UTF-8 encoding of one scalar value as bytes. -/
def utf8EncodeChar (c : Char) : List Nat :=
  let n := c.toNat
  if n < 0x80 then [n]
  else if n < 0x800 then [0xC0 + n / 64, 0x80 + n % 64]
  else if n < 0x10000 then [0xE0 + n / 4096, 0x80 + (n / 64) % 64, 0x80 + n % 64]
  else [0xF0 + n / 262144, 0x80 + (n / 4096) % 64, 0x80 + (n / 64) % 64, 0x80 + n % 64]

/-- UTF-8 encoding of a string, the model of `s.encode("utf-8")`. -/
def utf8Encode (l : List Char) : List Nat :=
  (l.map utf8EncodeChar).flatten

/-- Continuation-byte test for UTF-8 decoding. -/
def isContByte (b : Nat) : Bool := 0x80 ≤ b && b ≤ 0xBF

/-- Strict UTF-8 decoding, the model of `bytes.decode("utf-8")`:
`none` models a raised `UnicodeDecodeError`. -/
def utf8DecodeStrict : List Nat → Option (List Char)
  | [] => some []
  | b :: rest =>
    if b < 0x80 then (utf8DecodeStrict rest).map (fun l => Char.ofNat b :: l)
    else if 0xC2 ≤ b ∧ b ≤ 0xDF then
      match rest with
      | b2 :: rest2 =>
        if isContByte b2 then
          (utf8DecodeStrict rest2).map (fun l => Char.ofNat ((b - 0xC0) * 64 + (b2 - 0x80)) :: l)
        else none
      | [] => none
    else if 0xE0 ≤ b ∧ b ≤ 0xEF then
      match rest with
      | b2 :: b3 :: rest3 =>
        if (isContByte b2 && isContByte b3) &&
           (decide (b = 0xE0) → decide (0xA0 ≤ b2)) &&
           (decide (b = 0xED) → decide (b2 ≤ 0x9F)) then
          (utf8DecodeStrict rest3).map
            (fun l => Char.ofNat ((b - 0xE0) * 4096 + (b2 - 0x80) * 64 + (b3 - 0x80)) :: l)
        else none
      | _ => none
    else if 0xF0 ≤ b ∧ b ≤ 0xF4 then
      match rest with
      | b2 :: b3 :: b4 :: rest4 =>
        if (isContByte b2 && isContByte b3 && isContByte b4) &&
           (decide (b = 0xF0) → decide (0x90 ≤ b2)) &&
           (decide (b = 0xF4) → decide (b2 ≤ 0x8F)) then
          (utf8DecodeStrict rest4).map
            (fun l => Char.ofNat ((b - 0xF0) * 262144 + (b2 - 0x80) * 4096 +
                                  (b3 - 0x80) * 64 + (b4 - 0x80)) :: l)
        else none
      | _ => none
    else none

/-- UTF-8 decoding with `errors="replace"`, auxiliary fuelled form (the
fuel strictly exceeds the number of remaining bytes, so it never runs
out): undecodable byte sequences produce the replacement character U+FFFD
and decoding continues after the maximal valid subpart. -/
def utf8DecodeReplaceF : Nat → List Nat → List Char
  | 0, _ => []
  | _ + 1, [] => []
  | f + 1, b :: rest =>
    if b < 0x80 then Char.ofNat b :: utf8DecodeReplaceF f rest
    else if 0xC2 ≤ b ∧ b ≤ 0xDF then
      match rest with
      | b2 :: rest2 =>
        if isContByte b2 then
          Char.ofNat ((b - 0xC0) * 64 + (b2 - 0x80)) :: utf8DecodeReplaceF f rest2
        else replCh :: utf8DecodeReplaceF f (b2 :: rest2)
      | [] => [replCh]
    else if 0xE0 ≤ b ∧ b ≤ 0xEF then
      match rest with
      | b2 :: rest2 =>
        if (isContByte b2) &&
           (decide (b = 0xE0) → decide (0xA0 ≤ b2)) &&
           (decide (b = 0xED) → decide (b2 ≤ 0x9F)) then
          match rest2 with
          | b3 :: rest3 =>
            if isContByte b3 then
              Char.ofNat ((b - 0xE0) * 4096 + (b2 - 0x80) * 64 + (b3 - 0x80)) ::
                utf8DecodeReplaceF f rest3
            else replCh :: utf8DecodeReplaceF f (b3 :: rest3)
          | [] => [replCh]
        else replCh :: utf8DecodeReplaceF f (b2 :: rest2)
      | [] => [replCh]
    else if 0xF0 ≤ b ∧ b ≤ 0xF4 then
      match rest with
      | b2 :: rest2 =>
        if (isContByte b2) &&
           (decide (b = 0xF0) → decide (0x90 ≤ b2)) &&
           (decide (b = 0xF4) → decide (b2 ≤ 0x8F)) then
          match rest2 with
          | b3 :: rest3 =>
            if isContByte b3 then
              match rest3 with
              | b4 :: rest4 =>
                if isContByte b4 then
                  Char.ofNat ((b - 0xF0) * 262144 + (b2 - 0x80) * 4096 +
                              (b3 - 0x80) * 64 + (b4 - 0x80)) :: utf8DecodeReplaceF f rest4
                else replCh :: utf8DecodeReplaceF f (b4 :: rest4)
              | [] => [replCh]
            else replCh :: utf8DecodeReplaceF f (b3 :: rest3)
          | [] => [replCh]
        else replCh :: utf8DecodeReplaceF f (b2 :: rest2)
      | [] => [replCh]
    else replCh :: utf8DecodeReplaceF f rest

/-- UTF-8 decoding with `errors="replace"`, the model of
`bytes.decode("utf-8", errors="replace")`. -/
def utf8DecodeReplace (bs : List Nat) : List Char :=
  utf8DecodeReplaceF (bs.length + 1) bs

/-- Model of Python `str.strip()`: remove leading and trailing whitespace. -/
def pyStrip (l : List Char) : List Char :=
  ((l.dropWhile pyIsSpace).reverse.dropWhile pyIsSpace).reverse

/-- Model of Python `text.find(c, start)`: absolute index of the first
occurrence of `c` at or after `start`, or `none` for the Python result -1. -/
def pyFind (t : List Char) (c : Char) (start : Nat) : Option Nat :=
  ((t.drop start).findIdx? (fun x => x = c)).map (fun k => k + start)

/-- Model of the Python slice `t[a:b]` (with clamping). -/
def pySlice (t : List Char) (a b : Nat) : List Char :=
  (t.drop a).take (b - a)

/-- Number of leading characters of a list satisfying a predicate. -/
def countWhile (p : Char → Bool) (l : List Char) : Nat :=
  (l.takeWhile p).length

/-- Values produced by the untyped parsers of `sexp/parser.py` and
`s_expression/parser.py`: Python `str`, `bytes`, `bool` and `list`. -/
inductive PyVal where
  | vStr (s : List Char)
  | vBytes (b : List Nat)
  | vBool (b : Bool)
  | vList (l : List PyVal)

/-- Typed S-expression tree of `sexp/types.py`: `SexpAtom` holds either a
text value or a raw byte payload; `SexpList` an ordered sequence of nodes. -/
inductive SexpNode where
  | atomS (s : List Char)
  | atomB (b : List Nat)
  | listN (items : List SexpNode)

/-- Dispatch marker for the fuelled canonical printer of `sexp/printer.py`:
either one node (`_write_canon` on a node) or the item loop of a list. -/
inductive CanonCall where
  | one (n : SexpNode)
  | many (l : List SexpNode)

/-- Embedding of `_write_canon` from `src/sexp/printer.py` (lines 70-86).
An atom is written as `<len>:<bytes>` where the bytes are the UTF-8
encoding of a text value or the raw payload of a byte value.  A list is
written as `(` + children + `)`, and the source inserts a single space
byte between consecutive children (`if not first: out.write(b" ")`).
Fuel only bounds recursion depth; `none` is fuel exhaustion. -/
def canonRun : Nat → CanonCall → Option (List Nat)
  | 0, _ => none
  | _ + 1, .one (.atomS s) =>
    let b := utf8Encode s
    some ((natDigits b.length).map Char.toNat ++ 58 :: b)
  | _ + 1, .one (.atomB b) =>
    some ((natDigits b.length).map Char.toNat ++ 58 :: b)
  | f + 1, .one (.listN items) =>
    (canonRun f (.many items)).map (fun inner => 40 :: inner ++ [41])
  | _ + 1, .many [] => some []
  | f + 1, .many [n] => canonRun f (.one n)
  | f + 1, .many (n :: rest) => do
    let first ← canonRun f (.one n)
    let more ← canonRun f (.many rest)
    pure (first ++ 32 :: more)

/-- Printer entry point `dumps_canonical` of `src/sexp/printer.py`. -/
def dumpsCanonicalPrinter (fuel : Nat) (n : SexpNode) : Option (List Nat) :=
  canonRun fuel (.one n)

/-- Dispatch marker for the fuelled serializers of `sexp/parser.py`
(`_dumps_canonical` and `_dumps_advanced`): one value or a list of values. -/
inductive DumpCall where
  | one (v : PyVal)
  | many (l : List PyVal)

/-- Embedding of `_dumps_canonical` from `src/sexp/parser.py` (lines
487-497).  A `str` becomes `<utf8-byte-length>:<text>`, a `bool` becomes
`#t`/`#f`, a list becomes `(` + concatenation of the children with no
separator + `)`; any other value raises `TypeError`, modelled as `none`
(fuel exhaustion is also `none`). -/
def pdcRun : Nat → DumpCall → Option (List Char)
  | 0, _ => none
  | _ + 1, .one (.vStr s) => some (natDigits (utf8ByteLen s) ++ ':' :: s)
  | _ + 1, .one (.vBool b) => some (if b then ['#', 't'] else ['#', 'f'])
  | _ + 1, .one (.vBytes _) => none
  | f + 1, .one (.vList l) =>
    (pdcRun f (.many l)).map (fun inner => '(' :: inner ++ [')'])
  | _ + 1, .many [] => some []
  | f + 1, .many (v :: rest) => do
    let first ← pdcRun f (.one v)
    let more ← pdcRun f (.many rest)
    pure (first ++ more)

/-- Serializer entry `_dumps_canonical` of `src/sexp/parser.py`. -/
def pyDumpsCanonical (fuel : Nat) (v : PyVal) : Option (List Char) :=
  pdcRun fuel (.one v)

/-- Simple one-character escapes of the RFC 9804 quoted-string decoder in
`visit_quoted_string` (`src/sexp/parser.py` lines 172-193), in source
order: bell, backspace, tab, vertical tab, newline, form feed, carriage
return, double quote, single quote, question mark, backslash. -/
def escSimple? (c : Char) : Option Char :=
  if c = 'a' then some (Char.ofNat 7)
  else if c = 'b' then some (Char.ofNat 8)
  else if c = 't' then some (Char.ofNat 9)
  else if c = 'v' then some (Char.ofNat 11)
  else if c = 'n' then some lfCh
  else if c = 'f' then some (Char.ofNat 12)
  else if c = 'r' then some crCh
  else if c = qCh then some qCh
  else if c = apCh then some apCh
  else if c = '?' then some '?'
  else if c = bsCh then some bsCh
  else none

/-- Embedding of the escape-decoding loop of `visit_quoted_string`
(`src/sexp/parser.py` lines 167-248), translated index-by-index from the
source; the fuel strictly exceeds the number of remaining characters and
every iteration consumes at least one, so it never runs out.  Notable
source behaviours preserved here: the hex escape needs two hex digits
(the exotic Python acceptance of a space-padded `int(..., 16)` argument
is not modelled; no input below exercises it); an octal escape whose
three digits are not all octal emits the backslash and the first digit
and then resumes one position too far (skipping the second digit); a
line continuation (backslash + CR / LF / CR LF / LF CR) resumes one
position past its end, swallowing the following character, because the
shared `i += 2` at the end of the branch chain is not compensated in
those branches. -/
def vqUnescapeF : Nat → List Char → List Char
  | 0, _ => []
  | _ + 1, [] => []
  | f + 1, c :: rest =>
    if c = bsCh then
      match rest with
      | [] => [bsCh]
      | next :: rest2 =>
        match escSimple? next with
        | some e => e :: vqUnescapeF f rest2
        | none =>
          if next = 'x' then
            match rest2 with
            | h1 :: h2 :: rest3 =>
              if isHexDigitCh h1 && isHexDigitCh h2 then
                Char.ofNat (16 * hexVal h1 + hexVal h2) :: vqUnescapeF f rest3
              else bsCh :: vqUnescapeF f (next :: h1 :: h2 :: rest3)
            | _ => bsCh :: vqUnescapeF f (next :: rest2)
          else if pyIsDigit next then
            match rest2 with
            | d2 :: d3 :: rest3 =>
              if isOctDigitCh next && isOctDigitCh d2 && isOctDigitCh d3 then
                Char.ofNat ((64 * digitVal next + 8 * digitVal d2 + digitVal d3) % 256) ::
                  vqUnescapeF f rest3
              else bsCh :: next :: vqUnescapeF f (d3 :: rest3)
            | _ => bsCh :: vqUnescapeF f (next :: rest2)
          else if next = crCh then
            match rest2 with
            | x :: rest3 =>
              if x = lfCh then
                match rest3 with
                | [] => []
                | _ :: rest4 => vqUnescapeF f rest4
              else vqUnescapeF f rest3
            | [] => []
          else if next = lfCh then
            match rest2 with
            | x :: rest3 =>
              if x = crCh then
                match rest3 with
                | [] => []
                | _ :: rest4 => vqUnescapeF f rest4
              else vqUnescapeF f rest3
            | [] => []
          else bsCh :: vqUnescapeF f (next :: rest2)
    else c :: vqUnescapeF f rest

/-- Escape decoding of `visit_quoted_string` on a whole content string. -/
def vqUnescape (l : List Char) : List Char :=
  vqUnescapeF (l.length + 1) l

/-- Error values raised by the functions of `src/sexp/parser.py`.  Each
constructor models one `raise` site (or grammar rejection), and carries
the byte offset mentioned in the corresponding message where the source
interpolates one.  `outOfFuel` models non-termination of the embedding
only. -/
inductive LErr where
  | outOfFuel
  | unexpectedEnd (pos : Nat)
  | unterminatedList (pos : Nat)
  | unterminatedQuoted (pos : Nat)
  | quotedParseFailed (pos : Nat) (inner : LErr)
  | unexpectedChar (pos : Nat)
  | noSexp
  | verbatimNoColon
  | intError
  | verbatimLength (pos : Nat)
  | quotedLenMismatch
  | oddHexDigits (pos : Nat)
  | invalidHexData
  | invalidB64Data
  | grammarReject
  | wrapped (inner : LErr)
deriving DecidableEq

/-- Token characters of the RFC 9804 token rule.
Modelled from the spec: the `token` rule of the grammar file
`rfc9804.peg` loaded by `src/sexp/parser.py` is not under `src/`; the
spec (section 4.2) gives the alphabet alpha, digit and `-./_:*+=`. -/
def tokenCh (c : Char) : Bool :=
  pyIsAlpha c || pyIsDigit c ||
  (c = '-' || c = '.' || c = '/' || c = '_' || c = ':' || c = '*' || c = '+' || c = '=')

/-- Acceptance of the RFC 9804 `token` grammar rule on a whole string.
Modelled from the spec: `rfc9804.peg` is not under `src/`; the spec
(section 4.2) requires a maximal run of token characters whose first
character is not a digit. -/
def tokenGrammarAccepts (t : List Char) : Bool :=
  (t ≠ [] : Bool) &&
  (match t.head? with
   | some c => tokenCh c && !pyIsDigit c
   | none => false) &&
  t.all tokenCh

/-- Validity of a decimal literal under the grammar rule
`decimal = "0" / [1-9] digit*`, which is quoted verbatim in the source
comment of `visit_decimal` (`src/sexp/parser.py` line 122). -/
def decimalOk (ds : List Char) : Bool :=
  (ds ≠ [] : Bool) && (ds = ['0'] || ds.head? ≠ some '0')

/-- Acceptance of the grammar rule `verbatim = decimal ":" octet*`,
quoted verbatim in the source comment of `visit_verbatim`
(`src/sexp/parser.py` line 126).
Modelled from the spec: the grammar file `rfc9804.peg` itself is not
under `src/`. -/
def grammarVerbatimAccepts (t : List Char) : Bool :=
  let ds := t.takeWhile pyIsDigit
  decimalOk ds && t.get? ds.length = some ':'

/-- Acceptance of the `quoted_string` grammar rule: an optional decimal
length prefix, then a double-quoted body.
Modelled from the spec: `rfc9804.peg` is not under `src/`; the spec
(section 4.2) describes the quoted-string form with optional length
prefix. -/
def grammarQuotedAccepts (t : List Char) : Bool :=
  let ds := t.takeWhile pyIsDigit
  let rest := t.drop ds.length
  (ds = [] || decimalOk ds) && rest.head? = some qCh &&
  decide (2 ≤ rest.length) && rest.getLast? = some qCh

/-- Acceptance of the `hexadecimal` grammar rule: optional decimal
prefix, then `#`, hex digits with interleaved whitespace, then `#`.
Modelled from the spec: `rfc9804.peg` is not under `src/`; the spec
(section 4.2) permits whitespace between the hex digits. -/
def grammarHexAccepts (t : List Char) : Bool :=
  let ds := t.takeWhile pyIsDigit
  let rest := t.drop ds.length
  (ds = [] || decimalOk ds) && rest.head? = some '#' &&
  decide (2 ≤ rest.length) && rest.getLast? = some '#' &&
  ((rest.drop 1).dropLast.all fun c => isHexDigitCh c || pyIsSpace c)

/-- Base64 alphabet characters (without padding). -/
def b64Ch (c : Char) : Bool :=
  pyIsAlpha c || pyIsDigit c || c = '+' || c = '/'

/-- Acceptance of the `base_64` grammar rule: optional decimal prefix,
then `|`, base64 characters, padding and whitespace, then `|`.
Modelled from the spec: `rfc9804.peg` is not under `src/`; the spec
(section 4.3) describes the base64 form. -/
def grammarB64Accepts (t : List Char) : Bool :=
  let ds := t.takeWhile pyIsDigit
  let rest := t.drop ds.length
  (ds = [] || decimalOk ds) && rest.head? = some '|' &&
  decide (2 ≤ rest.length) && rest.getLast? = some '|' &&
  ((rest.drop 1).dropLast.all fun c => b64Ch c || c = '=' || pyIsSpace c)

/-- Embedding of `visit_verbatim` (`src/sexp/parser.py` lines 125-147):
find the colon, parse the decimal length, and take exactly that many
characters of payload, raising when fewer remain. -/
def visitVerbatim (t : List Char) : Except LErr (List Char) :=
  match pyFind t ':' 0 with
  | none => .error .verbatimNoColon
  | some cp =>
    match pyIntOfString (pySlice t 0 cp) with
    | none => .error .intError
    | some length =>
      let ds := cp + 1
      if t.length < ds + length then .error (.verbatimLength 0)
      else .ok (pySlice t ds (ds + length))

/-- Embedding of `visit_quoted_string` (`src/sexp/parser.py` lines
149-258): strip the optional decimal length prefix and the quotes,
decode escapes with `vqUnescape`, and check the declared UTF-8 byte
length when a prefix was present. -/
def visitQuotedString (t : List Char) : Except LErr (List Char) :=
  match t.head? with
  | none => .error .intError
  | some c0 =>
    if pyIsDigit c0 then
      match pyFind t qCh 0 with
      | none => .error .intError
      | some qs =>
        match pyIntOfString (pySlice t 0 qs) with
        | none => .error .intError
        | some expected =>
          let content := pySlice t (qs + 1) (t.length - 1)
          let r := vqUnescape content
          if utf8ByteLen r ≠ expected then .error .quotedLenMismatch else .ok r
    else
      .ok (vqUnescape (pySlice t 1 (t.length - 1)))

/-- Bytes of a run of hexadecimal digit pairs (`binascii.unhexlify`). -/
def hexPairsToBytes : List Char → List Nat
  | h1 :: h2 :: rest => (16 * hexVal h1 + hexVal h2) :: hexPairsToBytes rest
  | _ => []

/-- Embedding of `visit_hexadecimal` (`src/sexp/parser.py` lines
260-272): strip, cut the `#` delimiters (honouring an optional length
prefix), remove all whitespace, reject an odd digit count, then
`unhexlify` and decode as UTF-8 with `errors="replace"`. -/
def visitHexadecimal (t : List Char) : Except LErr (List Char) :=
  let content := pyStrip t
  let hexData :=
    if content.head? = some '#' then (content.drop 1).dropLast
    else
      match pyFind content '#' 0 with
      | some p => (content.drop (p + 1)).dropLast
      | none => content.dropLast
  let hexData := hexData.filter fun c => !pyIsSpace c
  if hexData.length % 2 ≠ 0 then .error (.oddHexDigits 0)
  else if !hexData.all isHexDigitCh then .error .invalidHexData
  else .ok (utf8DecodeReplace (hexPairsToBytes hexData))

/-- Base64 value of one character (A-Z a-z 0-9 + /). -/
def b64Val (c : Char) : Nat :=
  if 65 ≤ c.toNat ∧ c.toNat ≤ 90 then c.toNat - 65
  else if 97 ≤ c.toNat ∧ c.toNat ≤ 122 then c.toNat - 71
  else if pyIsDigit c then c.toNat + 4
  else if c = '+' then 62
  else 63

/-- Base64 group decoder: decodes quartets, handling one or two `=`
padding characters in the final quartet; `none` for malformed input. -/
def b64Groups : List Char → Option (List Nat)
  | [] => some []
  | c1 :: c2 :: c3 :: c4 :: rest =>
    if b64Ch c1 && b64Ch c2 then
      if c3 = '=' then
        if c4 = '=' ∧ rest = [] then some [4 * b64Val c1 + b64Val c2 / 16] else none
      else if b64Ch c3 then
        if c4 = '=' then
          if rest = [] then
            some [4 * b64Val c1 + b64Val c2 / 16,
                  (b64Val c2 % 16) * 16 + b64Val c3 / 4]
          else none
        else if b64Ch c4 then
          (b64Groups rest).map fun bs =>
            (4 * b64Val c1 + b64Val c2 / 16) ::
            ((b64Val c2 % 16) * 16 + b64Val c3 / 4) ::
            ((b64Val c3 % 4) * 64 + b64Val c4) :: bs
        else none
      else none
    else none
  | _ => none

/-- Embedding of `visit_base_64` (`src/sexp/parser.py` lines 274-286):
strip, cut the `|` delimiters, remove whitespace, pad with `=` to a
multiple of four, and decode; the decoded bytes are turned into text
with `errors="replace"`.  Python discards stray non-alphabet characters
before decoding; this model rejects them instead, a difference no input
below exercises. -/
def visitBase64 (t : List Char) : Except LErr (List Char) :=
  let content := pyStrip t
  let data :=
    if content.head? = some '|' then (content.drop 1).dropLast
    else
      match pyFind content '|' 0 with
      | some p => (content.drop (p + 1)).dropLast
      | none => content.dropLast
  let data := data.filter fun c => !pyIsSpace c
  let missing := data.length % 4
  let data := if missing ≠ 0 then data ++ List.replicate (4 - missing) '=' else data
  match b64Groups data with
  | some bs => .ok (utf8DecodeReplace bs)
  | none => .error .invalidB64Data

/-- Whitespace skipping as done inline by `loads`/`parse_sexp`
(`src/sexp/parser.py`): advance while `text[index].isspace()`. -/
def lxSkipWs (t : List Char) (i : Nat) : Nat :=
  i + countWhile pyIsSpace (t.drop i)

/-- End-quote scan of the plain quoted-string branch of `parse_sexp`
(`src/sexp/parser.py` lines 401-406): starting at `e`, stop at the first
double quote whose predecessor is not a backslash; result is `t.length`
when no such quote exists.  Fuelled by the remaining length. -/
def lxScanAAux (t : List Char) : Nat → Nat → Nat
  | 0, e => e
  | f + 1, e =>
    if e < t.length then
      if t.get? e = some qCh ∧ t.get? (e - 1) ≠ some bsCh then e
      else lxScanAAux t f (e + 1)
    else e

/-- End-quote scan of the plain quoted-string branch, from index `e`. -/
def lxScanA (t : List Char) (e : Nat) : Nat :=
  lxScanAAux t t.length e

/-- End-quote scan of the length-prefixed quoted-string branch of
`parse_sexp` (`src/sexp/parser.py` lines 368-374); it additionally
accepts a quote directly after the opening quote at `qs`. -/
def lxScanBAux (t : List Char) (qs : Nat) : Nat → Nat → Nat
  | 0, e => e
  | f + 1, e =>
    if e < t.length then
      if t.get? e = some qCh ∧ (e = qs + 1 ∨ t.get? (e - 1) ≠ some bsCh) then e
      else lxScanBAux t qs f (e + 1)
    else e

/-- End-quote scan of the length-prefixed quoted-string branch. -/
def lxScanB (t : List Char) (qs e : Nat) : Nat :=
  lxScanBAux t qs t.length e

/-- Token scan shared by the token and `#` branches of `parse_sexp`:
consume while not whitespace and not a parenthesis. -/
def lxTokenEnd (t : List Char) (i : Nat) : Nat :=
  i + countWhile (fun c => !(pyIsSpace c || c = '(' || c = ')')) (t.drop i)

/-- Digit-only token scan used as the fallback of the digit branch of
`parse_sexp` (`src/sexp/parser.py` lines 358-363 and 391-396). -/
def lxNumberToken (t : List Char) (i : Nat) : PyVal × Nat :=
  let e := i + countWhile pyIsDigit (t.drop i)
  (.vStr (pySlice t i e), e)

/-- Embedding of the digit branch of `parse_sexp` (`src/sexp/parser.py`
lines 335-396): look for the next colon and quote; a colon first means a
verbatim candidate, checked against the grammar with every exception
falling back to a digit token; a quote first means a length-prefixed
quoted string; otherwise a digit token. -/
def lxDigitBranch (t : List Char) (i : Nat) : Except LErr (PyVal × Nat) :=
  let colonPos := pyFind t ':' i
  let quotePos := pyFind t qCh i
  match colonPos with
  | some cp =>
    if quotePos = none ∨ (∃ qp, quotePos = some qp ∧ cp < qp) then
      match pyIntOfString (pySlice t i cp) with
      | none => .ok (lxNumberToken t i)
      | some length =>
        let expectedEnd := cp + 1 + length
        if expectedEnd ≤ t.length then
          let part := pySlice t i expectedEnd
          if grammarVerbatimAccepts part then
            match visitVerbatim part with
            | .ok data => .ok (.vStr data, expectedEnd)
            | .error _ => .ok (lxNumberToken t i)
          else .ok (lxNumberToken t i)
        else .ok (lxNumberToken t i)
    else
      match quotePos with
      | some qs =>
        let e := lxScanB t qs (qs + 1)
        if t.length ≤ e then .error (.unterminatedQuoted qs)
        else
          let part := pySlice t i (e + 1)
          if grammarQuotedAccepts part then
            match visitQuotedString part with
            | .ok r => .ok (.vStr r, e + 1)
            | .error inner => .error (.quotedParseFailed i inner)
          else .error (.quotedParseFailed i .grammarReject)
      | none => .ok (lxNumberToken t i)
  | none =>
    match quotePos with
    | some qs =>
      let e := lxScanB t qs (qs + 1)
      if t.length ≤ e then .error (.unterminatedQuoted qs)
      else
        let part := pySlice t i (e + 1)
        if grammarQuotedAccepts part then
          match visitQuotedString part with
          | .ok r => .ok (.vStr r, e + 1)
          | .error inner => .error (.quotedParseFailed i inner)
        else .error (.quotedParseFailed i .grammarReject)
    | none => .ok (lxNumberToken t i)

/-- Embedding of the quoted-string branch of `parse_sexp`
(`src/sexp/parser.py` lines 398-418).  The whole branch body runs inside
a `try` whose handler re-raises as a failed-quoted-string error, so even
the unterminated case surfaces wrapped. -/
def lxQuoteBranch (t : List Char) (i : Nat) : Except LErr (PyVal × Nat) :=
  let e := lxScanA t (i + 1)
  if t.length ≤ e then .error (.quotedParseFailed i (.unterminatedQuoted i))
  else
    let part := pySlice t i (e + 1)
    if grammarQuotedAccepts part then
      match visitQuotedString part with
      | .ok r => .ok (.vStr r, e + 1)
      | .error inner => .error (.quotedParseFailed i inner)
    else .error (.quotedParseFailed i .grammarReject)

/-- Embedding of the `#` branch of `parse_sexp` (`src/sexp/parser.py`
lines 420-446): `#t`/`#f` booleans, then a delimiter-bounded token that
is tried against the hexadecimal and base64 grammar rules, falling back
to a plain token. -/
def lxHashBranch (t : List Char) (i : Nat) : Except LErr (PyVal × Nat) :=
  if t.get? (i + 1) = some 't' ∨ t.get? (i + 1) = some 'f' then
    if pySlice t i (i + 2) = ['#', 't'] then .ok (.vBool true, i + 2)
    else .ok (.vBool false, i + 2)
  else
    let e := lxTokenEnd t (i + 1)
    let part := pySlice t i e
    let asTok : Except LErr (PyVal × Nat) := .ok (.vStr part, e)
    let tryB64 : Except LErr (PyVal × Nat) :=
      if grammarB64Accepts part then
        match visitBase64 part with
        | .ok r => .ok (.vStr r, e)
        | .error _ => asTok
      else asTok
    if grammarHexAccepts part then
      match visitHexadecimal part with
      | .ok r => .ok (.vStr r, e)
      | .error _ => tryB64
    else tryB64

/-- Embedding of the final token branch of `parse_sexp`
(`src/sexp/parser.py` lines 448-456): consume until whitespace or a
parenthesis, raising on an empty result. -/
def lxTokenBranch (t : List Char) (i : Nat) : Except LErr (PyVal × Nat) :=
  let e := lxTokenEnd t i
  if e = i then .error (.unexpectedChar i)
  else .ok (.vStr (pySlice t i e), e)

/-- Dispatch marker for the fuelled `parse_sexp` runner: parsing one
expression at an index, or the item loop of the list rule with its
accumulated (reversed) children. -/
inductive LxCall where
  | sexp (i : Nat)
  | listLoop (i : Nat) (acc : List PyVal)

/-- Embedding of `parse_sexp` from `loads` (`src/sexp/parser.py` lines
307-456): skip whitespace, fail at end of input, then dispatch on the
first character (list, digit, quote, hash, token).  The list rule skips
whitespace, fails with an unterminated-list error carrying the current
index when input ends, closes on `)`, and otherwise parses an item
recursively.  Fuel decreases at every call; exhaustion models
non-termination only. -/
def lxRun (t : List Char) : Nat → LxCall → Except LErr (PyVal × Nat)
  | 0, _ => .error .outOfFuel
  | f + 1, .sexp i =>
    let i := lxSkipWs t i
    match t.get? i with
    | none => .error (.unexpectedEnd i)
    | some ch =>
      if ch = '(' then lxRun t f (.listLoop (i + 1) [])
      else if pyIsDigit ch then lxDigitBranch t i
      else if ch = qCh then lxQuoteBranch t i
      else if ch = '#' then lxHashBranch t i
      else lxTokenBranch t i
  | f + 1, .listLoop i acc =>
    let i := lxSkipWs t i
    match t.get? i with
    | none => .error (.unterminatedList i)
    | some ch =>
      if ch = ')' then .ok (.vList acc.reverse, i + 1)
      else
        match lxRun t f (.sexp i) with
        | .error e => .error e
        | .ok (v, j) => lxRun t f (.listLoop j (v :: acc))

/-- Embedding of the driver loop of `loads` (`src/sexp/parser.py` lines
458-474): repeatedly parse one expression and skip trailing whitespace
until the end of the (already stripped) input; zero results raise, one
result is returned bare, several are returned as a Python list. -/
def loadsTop (t : List Char) : Nat → Nat → List PyVal → Except LErr PyVal
  | 0, _, _ => .error .outOfFuel
  | f + 1, i, acc =>
    if i < t.length then
      match lxRun t f (.sexp i) with
      | .error e => .error e
      | .ok (v, j) => loadsTop t f (lxSkipWs t j) (acc ++ [v])
    else
      match acc with
      | [] => .error .noSexp
      | [v] => .ok v
      | _ => .ok (.vList acc)

/-- Embedding of `loads` (`src/sexp/parser.py` lines 303-479): strip the
input, run the driver loop, and re-wrap every raised `ValueError` in the
failed-to-parse error of the outer handler (fuel exhaustion is not a
Python exception and passes through unwrapped). -/
def loadsF (fuel : Nat) (s : List Char) : Except LErr PyVal :=
  match loadsTop (pyStrip s) fuel 0 [] with
  | .ok v => .ok v
  | .error .outOfFuel => .error .outOfFuel
  | .error e => .error (.wrapped e)

/-- One-character escaping used by the quoted-string branch of
`_dumps_advanced` (`src/sexp/parser.py` lines 508-537), in source
order; characters outside the printable ASCII range become `\xNN`
hex escapes. -/
def advEsc (c : Char) : List Char :=
  if c = qCh then [bsCh, qCh]
  else if c = bsCh then [bsCh, bsCh]
  else if c = Char.ofNat 7 then [bsCh, 'a']
  else if c = Char.ofNat 8 then [bsCh, 'b']
  else if c = Char.ofNat 9 then [bsCh, 't']
  else if c = Char.ofNat 11 then [bsCh, 'v']
  else if c = lfCh then [bsCh, 'n']
  else if c = Char.ofNat 12 then [bsCh, 'f']
  else if c = crCh then [bsCh, 'r']
  else if c = apCh then [bsCh, apCh]
  else if c = '?' then [bsCh, '?']
  else if c.toNat < 32 ∨ 126 < c.toNat then bsCh :: 'x' :: hexMin2 c.toNat
  else [c]

/-- Embedding of `_dumps_advanced` (`src/sexp/parser.py` lines 500-551):
a string that the token grammar accepts is emitted bare, any other
string is double-quoted with C-style escapes (the empty string becomes
a bare pair of quotes, which coincides with the general case); booleans
become `#t`/`#f`; lists join their children with single spaces inside
parentheses; other values raise `TypeError`, modelled as `none`. -/
def pdaRun : Nat → DumpCall → Option (List Char)
  | 0, _ => none
  | _ + 1, .one (.vStr s) =>
    if tokenGrammarAccepts s then some s
    else some (qCh :: (s.map advEsc).flatten ++ [qCh])
  | _ + 1, .one (.vBool b) => some (if b then ['#', 't'] else ['#', 'f'])
  | _ + 1, .one (.vBytes _) => none
  | f + 1, .one (.vList l) =>
    (pdaRun f (.many l)).map (fun inner => '(' :: inner ++ [')'])
  | _ + 1, .many [] => some []
  | f + 1, .many [v] => pdaRun f (.one v)
  | f + 1, .many (v :: rest) => do
    let first ← pdaRun f (.one v)
    let more ← pdaRun f (.many rest)
    pure (first ++ ' ' :: more)

/-- Serializer entry `_dumps_advanced` of `src/sexp/parser.py`. -/
def pyDumpsAdvanced (fuel : Nat) (v : PyVal) : Option (List Char) :=
  pdaRun fuel (.one v)

/-- Errors raised by `src/s_expression/parser.py`; each constructor
models one `raise ValueError` site with the position its message
interpolates.  `outOfFuel` models non-termination of the embedding. -/
inductive SErr where
  | outOfFuel
  | unexpectedClose (pos : Nat)
  | unknownAtom (pos : Nat)
  | invalidBool (pos : Nat)
  | verbatimLenMismatch (pos : Nat)
  | expectedClosingHash (pos : Nat)
  | expectedClosingPipe (pos : Nat)
  | fromhexOdd
  | b64DecodeError
deriving DecidableEq

/-- Count of characters skipped by `_skip_whitespace` of
`src/s_expression/parser.py` (lines 28-50): whitespace, and `;` comments
up to (and here, together with) the line-ending character, which the
comment scan leaves for the whitespace scan.  The Boolean flag is true
while inside a comment. -/
def skipWsCount : Bool → List Char → Nat
  | _, [] => 0
  | false, c :: rest =>
    if pyIsSpace c then 1 + skipWsCount false rest
    else if c = ';' then 1 + skipWsCount true rest
    else 0
  | true, c :: rest =>
    if c = lfCh ∨ c = crCh then 1 + skipWsCount false rest
    else 1 + skipWsCount true rest

/-- Index after `_skip_whitespace` starting at `i` (also the index
mutation performed by every `_peek` call of the class). -/
def seSkipWs (t : List Char) (i : Nat) : Nat :=
  i + skipWsCount false (t.drop i)

/-- Extra token characters of `_parse_token` beyond `isalnum`. -/
def seTokenExtraCh (c : Char) : Bool :=
  c = '.' || c = '/' || c = '_' || c = '*' || c = '+' || c = '=' || c = '-' || c = '?'

/-- Embedding of `_parse_number_or_verbatim`
(`src/s_expression/parser.py` lines 244-268): read a run of decimal
digits; a following colon (reached through the whitespace-skipping
`_peek`) makes it a verbatim string whose declared length is consumed
with `_consume`, which counts characters, not bytes; too few remaining
characters raise a length mismatch.  Without a colon the digit run is
returned as a numeric token (with the index left after the `_peek`
whitespace skip, as in the source). -/
def seParseNumberOrVerbatim (t : List Char) (i : Nat) : Except SErr (List Char × Nat) :=
  let ds := (t.drop i).takeWhile pyIsDigit
  let i2 := i + ds.length
  let j := seSkipWs t i2
  if t.get? j = some ':' then
    let length := digitsToNat ds
    let value := (t.drop (j + 1)).take length
    if value.length ≠ length then .error (.verbatimLenMismatch (j + 1 + length))
    else .ok (value, j + 1 + length)
  else .ok (ds, j)

/-- Embedding of `_parse_boolean` (`src/s_expression/parser.py` lines
208-230): consume `#`, then `_peek` (which skips whitespace) must see
`t` or `f`. -/
def seParseBoolean (t : List Char) (i : Nat) : Except SErr (PyVal × Nat) :=
  let k := seSkipWs t (i + 1)
  match t.get? k with
  | some c =>
    if c = 't' then .ok (.vBool true, k + 1)
    else if c = 'f' then .ok (.vBool false, k + 1)
    else .error (.invalidBool k)
  | none => .error (.invalidBool k)

/-- Embedding of `_parse_hexadecimal` (`src/s_expression/parser.py`
lines 270-303): consume `#`, take a run of hex digits (whitespace inside
the run is NOT accepted, unlike the grammar-driven sibling; whitespace
before the closing `#` is, because `_peek` skips it), handle the empty
`##` case, require the closing `#`, then `bytes.fromhex` (which raises
on an odd digit count) and a strict UTF-8 decode falling back to the raw
bytes. -/
def seParseHexadecimal (t : List Char) (i : Nat) : Except SErr (PyVal × Nat) :=
  let hx := (t.drop (i + 1)).takeWhile isHexDigitCh
  let i2 := i + 1 + hx.length
  let j := seSkipWs t i2
  if hx = [] ∧ t.get? j = some '#' then .ok (.vStr [], j + 1)
  else if t.get? j ≠ some '#' then .error (.expectedClosingHash j)
  else if hx.length % 2 ≠ 0 then .error .fromhexOdd
  else
    let bs := hexPairsToBytes hx
    match utf8DecodeStrict bs with
    | some s => .ok (.vStr s, j + 1)
    | none => .ok (.vBytes bs, j + 1)

/-- Embedding of `_parse_base64` (`src/s_expression/parser.py` lines
305-331): consume `|`, take a run of base64/padding characters, require
the very next character to be `|` (`_consume`, no whitespace skip),
decode (errors model `binascii` failures), then strict UTF-8 decode
falling back to raw bytes. -/
def seParseBase64 (t : List Char) (i : Nat) : Except SErr (PyVal × Nat) :=
  let dat := (t.drop (i + 1)).takeWhile (fun c => b64Ch c || c = '=')
  let i2 := i + 1 + dat.length
  if t.get? i2 ≠ some '|' then .error (.expectedClosingPipe (i2 + 1))
  else
    match b64Groups dat with
    | none => .error .b64DecodeError
    | some bs =>
      match utf8DecodeStrict bs with
      | some s => .ok (.vStr s, i2 + 1)
      | none => .ok (.vBytes bs, i2 + 1)

/-- Escape handling of `_handle_escape` (`src/s_expression/parser.py`
lines 373-396): newline, tab, backslash, quote, space; anything else
returns the character itself. -/
def seHandleEscape (c : Char) : Char :=
  if c = 'n' then lfCh
  else if c = 't' then Char.ofNat 9
  else c

/-- Embedding of the loop of `_parse_quoted_string`
(`src/s_expression/parser.py` lines 342-371).  Every `_peek` call skips
whitespace (so unescaped whitespace inside the quotes is dropped), a
known escape consumes its character, an unknown escape appends a
backslash without consuming, and at end of input `_peek` returns the
empty string, which matches no case, so `_consume(1)` appends nothing
and the index grows forever: the loop never terminates, which the fuel
models. -/
def seQuotedLoop (t : List Char) : Nat → Nat → List Char → Except SErr (List Char × Nat)
  | 0, _, _ => .error .outOfFuel
  | f + 1, i, acc =>
    let j := seSkipWs t i
    match t.get? j with
    | some c =>
      if c = qCh then .ok (acc, j + 1)
      else if c = bsCh then
        let k := seSkipWs t (j + 1)
        match t.get? k with
        | some nc =>
          if nc = qCh ∨ nc = bsCh ∨ nc = 'n' ∨ nc = 't' ∨ nc = ' ' then
            seQuotedLoop t f (k + 1) (acc ++ [seHandleEscape nc])
          else seQuotedLoop t f k (acc ++ [bsCh])
        | none => seQuotedLoop t f k (acc ++ [bsCh])
      else seQuotedLoop t f (j + 1) (acc ++ [c])
    | none => seQuotedLoop t f (j + 1) acc

/-- Dispatch marker for the fuelled `_parse_sexpr` runner of
`src/s_expression/parser.py`: one expression at an index, or the item
loop of `_parse_list` with the accumulated (reversed) children. -/
inductive SeCall where
  | sexpr (i : Nat)
  | listLoop (i : Nat) (acc : List PyVal)

/-- Embedding of `_parse_sexpr` / `_parse_list` / `_parse_atom` of
`src/s_expression/parser.py` (lines 100-180), with the atom dispatch in
source order: quoted string, apostrophe quote-sugar (which parses the
following expression and wraps it as `["quote", expr]`), booleans and
hexadecimal behind `#`, comparison operators (note the Python quirk that
the empty string returned by `_peek` at end of input satisfies
`char in "><="`, so end of input lands in that branch and yields an
empty token), digits, base64, tokens, otherwise an unknown-atom error.
Fuel decreases at every call; exhaustion models non-termination. -/
def seRun (t : List Char) : Nat → SeCall → Except SErr (PyVal × Nat)
  | 0, _ => .error .outOfFuel
  | f + 1, .sexpr i =>
    let j := seSkipWs t i
    let c := t.get? j
    if c = some '(' then seRun t f (.listLoop (j + 1) [])
    else if c = some ')' then .error (.unexpectedClose j)
    else if c = some qCh then
      match seQuotedLoop t f (j + 1) [] with
      | .error e => .error e
      | .ok (s, k) => .ok (.vStr s, k)
    else if c = some apCh then
      match seRun t f (.sexpr (j + 1)) with
      | .error e => .error e
      | .ok (v, k) => .ok (.vList [.vStr ['q', 'u', 'o', 't', 'e'], v], k)
    else if c = some '#' then
      if t.get? (j + 1) = some 't' ∨ t.get? (j + 1) = some 'f' then seParseBoolean t j
      else seParseHexadecimal t j
    else if c = none ∨ c = some '>' ∨ c = some '<' ∨ c = some '=' then
      let e := j + countWhile (fun x => x = '>' || x = '<' || x = '=' || x = '!') (t.drop j)
      .ok (.vStr (pySlice t j e), e)
    else if (match c with | some ch => pyIsDigit ch | none => false) then
      match seParseNumberOrVerbatim t j with
      | .error e => .error e
      | .ok (s, k) => .ok (.vStr s, k)
    else if c = some '|' then seParseBase64 t j
    else if (match c with | some ch => pyIsAlnum ch || seTokenExtraCh ch | none => false) then
      let e := j + countWhile (fun x => pyIsAlnum x || seTokenExtraCh x) (t.drop j)
      .ok (.vStr (pySlice t j e), e)
    else .error (.unknownAtom j)
  | f + 1, .listLoop i acc =>
    let j := seSkipWs t i
    if t.get? j = some ')' then .ok (.vList acc.reverse, j + 1)
    else
      match seRun t f (.sexpr j) with
      | .error e => .error e
      | .ok (v, k) => seRun t f (.listLoop k (v :: acc))

/-- Embedding of `SExpressionParser(text).parse()` of
`src/s_expression/parser.py`: the constructor strips the text, `parse`
runs `_parse_sexpr` from index 0. -/
def seParseF (fuel : Nat) (s : List Char) : Except SErr (PyVal × Nat) :=
  seRun (pyStrip s) fuel (.sexpr 0)

section Lemmas

theorem countWhile_nil (p : Char → Bool) : countWhile p [] = 0 := rfl

theorem countWhile_cons (p : Char → Bool) (x : Char) (l : List Char) :
    countWhile p (x :: l) = if p x then countWhile p l + 1 else 0 := by
  by_cases h : p x <;> simp [countWhile, List.takeWhile_cons, h]

theorem countWhile_eq_length (p : Char → Bool) (l : List Char)
    (h : ∀ x ∈ l, p x = true) : countWhile p l = l.length := by
  induction l with
  | nil => rfl
  | cons x l ih =>
    have hx : p x = true := h x (List.mem_cons_self x l)
    simp [countWhile_cons, hx, ih fun y hy => h y (List.mem_cons_of_mem x hy)]

theorem takeWhile_append_cons (p : Char → Bool) (ds rest : List Char) (c : Char)
    (h : ∀ x ∈ ds, p x = true) (hc : p c = false) :
    (ds ++ c :: rest).takeWhile p = ds := by
  induction ds with
  | nil => simp [List.takeWhile_cons, hc]
  | cons d ds ih =>
    have hd : p d = true := h d (List.mem_cons_self d ds)
    simp [List.takeWhile_cons, hd, ih fun y hy => h y (List.mem_cons_of_mem d hy)]

theorem seQuotedLoop_past_end (t : List Char) :
    ∀ (f : Nat) (i : Nat) (acc : List Char), t.length ≤ i →
      seQuotedLoop t f i acc = .error .outOfFuel := by
  intro f
  induction f with
  | zero => intro i acc _; rfl
  | succ f ih =>
    intro i acc h
    have hd : t.drop i = [] := List.drop_eq_nil_of_le h
    have hski : seSkipWs t i = i := by simp [seSkipWs, hd, countWhile_nil, skipWsCount]
    have hg : t.get? i = none := List.get?_eq_none.mpr h
    simp only [seQuotedLoop, hski, hg]
    exact ih (i + 1) acc (Nat.le_succ_of_le h)

end Lemmas

/-- Unterminated quoted-string input (an opening quote, then `abc`, no
closing quote), used by claim C7. -/
def unterminatedQuoteInput : List Char := [qCh, 'a', 'b', 'c']

/-- C1: the claim says `dumps_canonical` writes an atom as
`<byte-length>:<raw-bytes>` and a list as `(` + concatenation of the
children with NO separator + `)`, so that the list of atoms `a` and `bc`
yields exactly `(1:a2:bc)`.  The typed printer `_write_canon` of
`src/sexp/printer.py` instead inserts a space byte between children and
produces `(1:a 2:bc)`; the sibling `_dumps_canonical` of
`src/sexp/parser.py` produces `(1:a2:bc)` as claimed.  This theorem
evaluates both embeddings on the claimed input and records that the two
outputs differ. -/
theorem claimC1_canonical_space_eval :
    dumpsCanonicalPrinter 10 (.listN [.atomS ['a'], .atomS ['b', 'c']]) =
      some (("(1:a 2:bc)".toList).map Char.toNat) ∧
    pyDumpsCanonical 10 (.vList [.vStr ['a'], .vStr ['b', 'c']]) =
      some ("(1:a2:bc)".toList) ∧
    ("(1:a 2:bc)".toList).map Char.toNat ≠ ("(1:a2:bc)".toList).map Char.toNat :=
  ⟨rfl, rfl, by decide⟩

/-- C3: the claim says `parse(dumps_canonical(N)) == N` for every
grammar-producible node.  For the atom `é` (producible, e.g. from the
hexadecimal atom `#c3a9#`), `_dumps_canonical` emits the UTF-8 BYTE
length `2` as prefix, but `loads` consumes the declared length in
CHARACTERS: `2:é` has only one character after the colon, the verbatim
attempt fails, the fallback returns the digit token `2`, and the
remainder `:é` parses as a second token, so the round trip returns the
two-element list `["2", ":é"]` instead of `é`. -/
theorem claimC3_roundtrip_eval :
    pyDumpsCanonical 10 (.vStr ['é']) = some ("2:é".toList) ∧
    loadsF 30 ("2:é".toList) = .ok (.vList [.vStr ['2'], .vStr [':', 'é']]) ∧
    PyVal.vList [.vStr ['2'], .vStr [':', 'é']] ≠ .vStr ['é'] :=
  ⟨rfl, rfl, fun h => PyVal.noConfusion h⟩

/-- C4: the claim says
`dumps_canonical(parse(dumps_advanced(N))) == dumps_canonical(N)`.
For the one-character atom backslash, `_dumps_advanced` produces the
four characters quote backslash backslash quote, but the end-quote
scanner of `loads` refuses any closing quote whose predecessor is a
backslash, so it never finds the end of the string and `parse` raises
(unterminated, re-wrapped twice) instead of returning a node — the
left-hand side of the claimed equation does not exist. -/
theorem claimC4_advanced_roundtrip_eval :
    pyDumpsAdvanced 10 (.vStr [bsCh]) = some [qCh, bsCh, bsCh, qCh] ∧
    loadsF 30 [qCh, bsCh, bsCh, qCh] =
      .error (.wrapped (.quotedParseFailed 0 (.unterminatedQuoted 0))) :=
  ⟨rfl, rfl⟩

/-- C5: the claim says the quoted-string decoder maps an octal escape of
three octal digits to the character of its value mod 256, maps a hex
escape of two hex digits to its character, and elides a backslash
followed by CR, LF, CR LF or LF CR with no output character.  The octal
and hex parts hold (first three conjuncts).  The line-continuation part
fails: because the shared `i += 2` of the escape chain is not
compensated, the decoder of `visit_quoted_string` also swallows the
first character AFTER the line continuation, so content backslash CR `a`
decodes to the empty string instead of `a` (and likewise for the
CR LF / LF CR forms). -/
theorem claimC5_escape_eval :
    vqUnescape [bsCh, '1', '0', '1'] = ['A'] ∧
    vqUnescape [bsCh, '4', '0', '1'] = [Char.ofNat 1] ∧
    vqUnescape [bsCh, 'x', '4', '1'] = ['A'] ∧
    visitQuotedString [qCh, bsCh, '1', '0', '1', qCh] = .ok ['A'] ∧
    vqUnescape [bsCh, crCh] = [] ∧
    vqUnescape [bsCh, crCh, 'a'] = [] ∧
    vqUnescape [bsCh, crCh, lfCh, 'a'] = [] ∧
    vqUnescape [bsCh, lfCh, crCh, 'a'] = [] ∧
    ([] : List Char) ≠ ['a'] :=
  ⟨rfl, rfl, rfl, rfl, rfl, rfl, rfl, rfl, by decide⟩

/-- C6: the claim says hexadecimal parsing accepts whitespace between
digits, rejects an odd digit count, decodes pairs to bytes, and keeps
undecodable payloads as raw bytes, preserved exactly.  For
`visit_hexadecimal` of `src/sexp/parser.py` the first two parts hold
(conjuncts one and two), but the decode uses `errors="replace"`: the
byte `c3` comes back as the replacement character U+FFFD, whose UTF-8
encoding is not the original byte — the payload is lost.  The sibling
`_parse_hexadecimal` of `src/s_expression/parser.py` preserves the raw
byte on the same input (fourth conjunct). -/
theorem claimC6_hex_eval :
    visitHexadecimal ("#6 1 6 2#".toList) = .ok ['a', 'b'] ∧
    visitHexadecimal ("#616#".toList) = .error (.oddHexDigits 0) ∧
    visitHexadecimal ("#c3#".toList) = .ok [replCh] ∧
    seParseF 10 ("#c3#".toList) = .ok (.vBytes [195], 4) ∧
    utf8Encode [replCh] ≠ [195] :=
  ⟨rfl, rfl, rfl, rfl, by decide⟩

/-- C8: the claim says the single-value parse errors with an
UnexpectedEof kind on empty input and with a TrailingData kind on a
complete value followed by more content.  `loads` of
`src/sexp/parser.py` instead parses ALL top-level values: on `a b` it
returns the list `["a", "b"]` with no error (its own test suite expects
an extra-content error here).  Empty input does error (second conjunct).
The sibling `parse` of `src/s_expression/parser.py` is worse: on empty
input the empty string returned by `_peek` satisfies the Python test
`char in "><="` and the comparison-operator branch returns the empty
token, so `parse("")` succeeds with `""` (third conjunct). -/
theorem claimC8_strictness_eval :
    loadsF 30 ("a b".toList) = .ok (.vList [.vStr ['a'], .vStr ['b']]) ∧
    loadsF 30 ([] : List Char) = .error (.wrapped .noSexp) ∧
    seParseF 10 ([] : List Char) = .ok (.vStr [], 0) :=
  ⟨rfl, rfl, rfl⟩

/-- C7 chain lemma: on the unterminated input, the quoted-string loop of
`src/s_expression/parser.py` started after the opening quote consumes
the three content characters and then spins at end of input forever,
whatever the fuel. -/
theorem seQuotedLoop_unterminated (f : Nat) :
    seQuotedLoop unterminatedQuoteInput f 1 [] = .error .outOfFuel := by
  match f with
  | 0 => rfl
  | 1 => rfl
  | 2 => rfl
  | 3 => rfl
  | n + 4 =>
    calc seQuotedLoop unterminatedQuoteInput (n + 4) 1 []
        = seQuotedLoop unterminatedQuoteInput (n + 3) 2 ['a'] := rfl
      _ = seQuotedLoop unterminatedQuoteInput (n + 2) 3 ['a', 'b'] := rfl
      _ = seQuotedLoop unterminatedQuoteInput (n + 1) 4 ['a', 'b', 'c'] := rfl
      _ = .error .outOfFuel :=
        seQuotedLoop_past_end unterminatedQuoteInput (n + 1) 4 ['a', 'b', 'c'] (by decide)

/-- C7: the claim says parsing an input whose quoted string lacks its
closing quote terminates and reports an UnterminatedAtom error.  The
`_parse_quoted_string` loop of `src/s_expression/parser.py` instead
never terminates on such input: at end of input `_peek` returns the
empty string, which matches no case, and `_consume(1)` appends nothing
while the index grows without bound — for EVERY fuel the embedding runs
out of fuel, i.e. the parse neither succeeds nor raises.  (`loads` of
`src/sexp/parser.py`, by contrast, does terminate with an
unterminated-quoted-string error on the same input — second conjunct.) -/
theorem claimC7_unterminated_eval :
    (∀ fuel : Nat, seParseF fuel unterminatedQuoteInput = .error .outOfFuel) ∧
    loadsF 30 unterminatedQuoteInput =
      .error (.wrapped (.quotedParseFailed 0 (.unterminatedQuoted 0))) := by
  refine ⟨fun fuel => ?_, rfl⟩
  match fuel with
  | 0 => rfl
  | f + 1 =>
    have h : seParseF (f + 1) unterminatedQuoteInput =
        (match seQuotedLoop unterminatedQuoteInput f 1 [] with
         | .error e => .error e
         | .ok (s, k) => .ok (.vStr s, k)) := rfl
    rw [h, seQuotedLoop_unterminated f]

/-- C10: the claim says the apostrophe quote-sugar is applied
unconditionally by the default parser (`SExpressionParser` has no
options at all): whenever the input starts with an apostrophe and the
remainder from index 1 parses as an expression `v`, the whole input
parses as the two-element list `["quote", v]` at the same end index. -/
theorem claimC10_quote_sugar (f : Nat) (rest : List Char) (v : PyVal) (j : Nat)
    (h : seRun (apCh :: rest) f (.sexpr 1) = .ok (v, j)) :
    seRun (apCh :: rest) (f + 1) (.sexpr 0) =
      .ok (.vList [.vStr ['q', 'u', 'o', 't', 'e'], v], j) := by
  have hstep : seRun (apCh :: rest) (f + 1) (.sexpr 0) =
      (match seRun (apCh :: rest) f (.sexpr 1) with
       | .error e => .error e
       | .ok (v, k) => .ok (.vList [.vStr ['q', 'u', 'o', 't', 'e'], v], k)) := rfl
  rw [hstep, h]

/-- C10 witness: on the concrete input apostrophe `foo`, the remainder
parses as the token `foo` ending at index 4, and the theorem yields the
list `["quote", "foo"]`. -/
theorem claimC10_quote_sugar_witness :
    seRun (apCh :: ['f', 'o', 'o']) 2 (.sexpr 0) =
      .ok (.vList [.vStr ['q', 'u', 'o', 't', 'e'], .vStr ['f', 'o', 'o']], 4) :=
  claimC10_quote_sugar 1 ['f', 'o', 'o'] (.vStr ['f', 'o', 'o']) 4 rfl

/-- One-step equation for the list loop of `lxRun`, used to unfold a
single iteration without unfolding the nested calls. -/
theorem lxRun_listLoop_step (t : List Char) (g i : Nat) (acc : List PyVal) :
    lxRun t (g + 1) (.listLoop i acc) =
      (match t.get? (lxSkipWs t i) with
       | none => .error (.unterminatedList (lxSkipWs t i))
       | some ch =>
         if ch = ')' then .ok (.vList acc.reverse, lxSkipWs t i + 1)
         else
           match lxRun t g (.sexp (lxSkipWs t i)) with
           | .error e => .error e
           | .ok (v, k) => lxRun t g (.listLoop k (v :: acc))) := rfl

/-- C2 counterexample: the claim — for a verbatim atom `<k>:<payload>`
the parser consumes exactly `k` BYTES of payload — is false on the
code.  On the input `2:éx` the parser of `src/s_expression/parser.py`
succeeds and returns the payload `éx`, which is two characters but
THREE UTF-8 bytes, because `_consume` counts characters. -/
theorem claimC2_counterexample :
    ¬ (∀ (fuel : Nat) (ds rest v : List Char) (j : Nat),
        ds ≠ [] → ds.all pyIsDigit →
        seParseF fuel (ds ++ ':' :: rest) = .ok (.vStr v, j) →
        utf8ByteLen v = digitsToNat ds) := by
  intro h
  have := h 10 ['2'] ['é', 'x'] ['é', 'x'] 4 (by decide) (by decide) rfl
  exact absurd this (by decide)

/-- C2 as amended: for a verbatim atom whose length prefix is the digit
string `ds`, `_parse_number_or_verbatim` consumes exactly
`digitsToNat ds` CHARACTERS (not bytes) of payload after the colon, and
rejects the input with a length-mismatch error exactly when fewer than
that many characters remain. -/
theorem claimC2_amended (ds rest : List Char) (h1 : ds ≠ [])
    (h2 : ∀ x ∈ ds, pyIsDigit x = true) :
    seParseNumberOrVerbatim (ds ++ ':' :: rest) 0 =
      if rest.length < digitsToNat ds then
        .error (.verbatimLenMismatch (ds.length + 1 + digitsToNat ds))
      else .ok (rest.take (digitsToNat ds), ds.length + 1 + digitsToNat ds) := by
  have hds : ((ds ++ ':' :: rest).drop 0).takeWhile pyIsDigit = ds := by
    rw [List.drop_zero]
    exact takeWhile_append_cons _ _ _ _ h2 (by decide)
  have hdrop : (ds ++ ':' :: rest).drop ds.length = ':' :: rest := List.drop_left ds (':' :: rest)
  have hskip : seSkipWs (ds ++ ':' :: rest) ds.length = ds.length := by
    simp [seSkipWs, hdrop, countWhile, skipWsCount, (by decide : pyIsSpace ':' = false),
      (by decide : (':' : Char) ≠ ';')]
  have hget : (ds ++ ':' :: rest).get? ds.length = some ':' := by
    rw [List.get?_append_right (Nat.le_refl _)]
    simp
  have hdrop1 : (ds ++ ':' :: rest).drop (ds.length + 1) = rest := by
    have he : (ds ++ ':' :: rest) = (ds ++ [':']) ++ rest := by simp
    rw [he, show ds.length + 1 = (ds ++ [':']).length by simp, List.drop_left]
  simp only [seParseNumberOrVerbatim, hds, Nat.zero_add, hskip, hget, hdrop1, if_pos rfl,
    List.length_take, if_true]
  by_cases hlt : rest.length < digitsToNat ds
  · rw [if_pos (by omega : digitsToNat ds ⊓ rest.length ≠ digitsToNat ds), if_pos hlt]
  · rw [if_neg (by omega : ¬(digitsToNat ds ⊓ rest.length ≠ digitsToNat ds)), if_neg hlt]

/-- C2 amended witness: on the concrete verbatim atom `5:hello` the
parser consumes the five characters `hello` and stops at index 7. -/
theorem claimC2_amended_witness :
    seParseNumberOrVerbatim ("5:hello".toList) 0 = .ok ("hello".toList, 7) := by
  have h := claimC2_amended ['5'] ("hello".toList) (by decide) (by decide)
  simpa using h

/-- C9 counterexample: the claim says parsing `(a` raises an
unclosed-list error referencing offset 0, the position of the opening
parenthesis.  The error actually raised by `loads` of
`src/sexp/parser.py` references offset 2, the position at which the
input ended, not offset 0. -/
theorem claimC9_counterexample :
    loadsF 30 ("(a".toList) = .error (.wrapped (.unterminatedList 2)) ∧
    LErr.wrapped (.unterminatedList 2) ≠ .wrapped (.unterminatedList 0) :=
  ⟨rfl, by decide⟩

/-- C9 as amended: for every list opened by `(` and followed only by a
single token (no closing parenthesis) before end of input, `parse_sexp`
fails with an unterminated-list error referencing the position where
input ended — one past the token, not the opening parenthesis. -/
theorem claimC9_amended (f : Nat) (c : Char) (cs : List Char)
    (htok : ∀ x ∈ c :: cs, pyIsSpace x = false ∧ x ≠ '(' ∧ x ≠ ')')
    (hd : pyIsDigit c = false) (hq : c ≠ qCh) (hh : c ≠ '#') :
    lxRun ('(' :: c :: cs) (f + 4) (.sexp 0) =
      .error (.unterminatedList ((c :: cs).length + 1)) := by
  have hc := htok c (List.mem_cons_self c cs)
  have hskip1 : lxSkipWs ('(' :: c :: cs) 1 = 1 := by
    simp [lxSkipWs, countWhile_cons, hc.1]
  have hget1 : ('(' :: c :: cs).get? 1 = some c := rfl
  have hpred : ∀ x ∈ c :: cs, (!(pyIsSpace x || x = '(' || x = ')')) = true := by
    intro x hx
    have h := htok x hx
    simp [h.1, h.2.1, h.2.2]
  have htokEnd : lxTokenEnd ('(' :: c :: cs) 1 = (c :: cs).length + 1 := by
    have hdrop : ('(' :: c :: cs).drop 1 = c :: cs := rfl
    rw [lxTokenEnd, hdrop, countWhile_eq_length _ _ hpred]
    omega
  have hstepA : lxRun ('(' :: c :: cs) (f + 4) (.sexp 0)
      = lxRun ('(' :: c :: cs) (f + 3) (.listLoop 1 []) := rfl
  have hstepSexp : lxRun ('(' :: c :: cs) (f + 2) (.sexp 1)
      = .ok (.vStr (pySlice ('(' :: c :: cs) 1 ((c :: cs).length + 1)), (c :: cs).length + 1) := by
    show lxRun ('(' :: c :: cs) ((f + 1) + 1) (.sexp 1) = _
    simp only [lxRun, hskip1, hget1]
    simp only [lxTokenBranch, htokEnd]
    rw [if_neg hc.2.1, if_neg (by simp [hd]), if_neg hq, if_neg hh,
      if_neg (by simp : ¬((c :: cs).length + 1 = 1))]
  have hskipE : lxSkipWs ('(' :: c :: cs) ((c :: cs).length + 1) = (c :: cs).length + 1 := by
    have : ('(' :: c :: cs).drop ((c :: cs).length + 1) = [] :=
      List.drop_eq_nil_of_le (by simp)
    simp [lxSkipWs, this, countWhile_nil]
  have hgetE : ('(' :: c :: cs).get? ((c :: cs).length + 1) = none :=
    List.get?_eq_none.mpr (by simp)
  have hstepList1 : lxRun ('(' :: c :: cs) (f + 3) (.listLoop 1 [])
      = lxRun ('(' :: c :: cs) (f + 2)
          (.listLoop ((c :: cs).length + 1)
            [.vStr (pySlice ('(' :: c :: cs) 1 ((c :: cs).length + 1))]) := by
    show lxRun ('(' :: c :: cs) ((f + 2) + 1) (.listLoop 1 []) = _
    rw [lxRun_listLoop_step, hskip1, hget1]
    simp only [hstepSexp]
    rw [if_neg hc.2.2]
  have hstepList2 : lxRun ('(' :: c :: cs) (f + 2)
      (.listLoop ((c :: cs).length + 1)
        [.vStr (pySlice ('(' :: c :: cs) 1 ((c :: cs).length + 1))])
      = .error (.unterminatedList ((c :: cs).length + 1)) := by
    show lxRun ('(' :: c :: cs) ((f + 1) + 1) _ = _
    rw [lxRun_listLoop_step, hskipE, hgetE]
  rw [hstepA, hstepList1, hstepList2]

/-- C9 amended witness: on the concrete input `(a` the error references
offset 2, the end of the input. -/
theorem claimC9_amended_witness :
    lxRun ('(' :: 'a' :: []) 4 (.sexp 0) = .error (.unterminatedList 2) := by
  have h := claimC9_amended 0 'a' [] (by decide) (by decide) (by decide) (by decide)
  simpa using h
